import Mathlib

/-!
Verification of the line-by-line radial-velocity engine
(`lbl/science/general.py`) against its natural-language specification.

The source is shallowly embedded over exact rationals (`ℚ`): numpy float
arrays become `List ℚ`, NaN entries become `none` in `Option ℚ`, and the
per-order 2-D arrays become `List (List ℚ)`.  Functions that live in
`lbl.core.math` (absent from the sources at hand) are either modelled
from the specification (their doc comment then starts with
`Modelled from the spec:`) or taken as explicit parameters when the
property under study holds for every choice of that function.
-/

namespace Lbl

/-- Speed of light in m/s, `constants.c.value` in the source. -/
def c_light : ℚ := 299792458

/-- Python `int()` conversion of a float: truncation toward zero. -/
def pyIntTrunc (q : ℚ) : Int := if 0 ≤ q then q.floor else q.ceil

/-- Insert a rational into a sorted list, keeping it sorted. -/
def insertSorted (x : ℚ) : List ℚ → List ℚ
  | [] => [x]
  | y :: ys => if x ≤ y then x :: y :: ys else y :: insertSorted x ys

/-- Insertion sort for rationals (ascending). -/
def sortQ (l : List ℚ) : List ℚ := l.foldr insertSorted []

/-- Median of a list of rationals, as `np.nanmedian` computes it on a
finite vector: middle element of the sorted list, or the average of the
two middle elements for even length.  (Junk value `0` on `[]`.) -/
def pyMedian (l : List ℚ) : ℚ :=
  let s := sortQ l
  let n := s.length
  if n % 2 = 1 then s.getD (n / 2) 0
  else (s.getD (n / 2 - 1) 0 + s.getD (n / 2) 0) / 2

/-- Embedding of `np.gradient` on a 1-D vector: one-sided differences at
the two ends, central differences inside. -/
def np_gradient (l : List ℚ) : List ℚ :=
  (List.range l.length).map (fun i =>
    if i = 0 then l.getD 1 0 - l.getD 0 0
    else if i = l.length - 1 then l.getD i 0 - l.getD (i - 1) 0
    else (l.getD (i + 1) 0 - l.getD (i - 1) 0) / 2)

/-- Embedding of `get_velo_scale` (general.py lines 176-194):
`dwave = np.gradient(wave)`, `dvelo = 1/median((wave/dwave)/c)`,
`width = int(hp_width/dvelo)`, forced odd by `width += 1` when even. -/
def get_velo_scale (wave_vector : List ℚ) (hp_width : ℚ) : Int :=
  let dwave := np_gradient wave_vector
  let dvelo := 1 / pyMedian (List.zipWith (fun w g => (w / g) / c_light) wave_vector dwave)
  let width := pyIntTrunc (hp_width / dvelo)
  if width % 2 = 0 then width + 1 else width

/-- Modelled from the spec: `mp.lowpassfilter` lives in `lbl.core.math`,
which is not among the sources; the spec (4.1 step 2) describes it as a
running-median (or boxcar) filter of the given odd pixel width, so it is
modelled here as the running median over a centred window of that width,
clamped at the vector ends. -/
def lowpassfilter (v : List ℚ) (width : Nat) : List ℚ :=
  let hw := width / 2
  (List.range v.length).map (fun i =>
    pyMedian ((v.drop (i - hw)).take (min (i + hw + 1) v.length - (i - hw))))

/-- Embedding of the science high-pass step of `compute_rv`
(general.py lines 553-559): for each order, the width comes from
`get_velo_scale(wavegrid[order], hp_width)` and the code subtracts
`lowpassfilter(wavegrid[order], width)` — the *wavelength grid*, not the
flux — from the science flux of that order. -/
def highpass_science (sci_data wavegrid : List (List ℚ)) (hp_width : ℚ) : List (List ℚ) :=
  List.zipWith (fun flux wave =>
    let width := (get_velo_scale wave hp_width).toNat
    List.zipWith (fun a b => a - b) flux (lowpassfilter wave width)) sci_data wavegrid

/-- Claimed behaviour of the high-pass step, following the spec's words:
each order's flux minus the low-pass-filtered version of that same flux,
with the width from `get_velo_scale` on the order's wavelength grid. -/
def highpass_claimed (sci_data wavegrid : List (List ℚ)) (hp_width : ℚ) : List (List ℚ) :=
  List.zipWith (fun flux wave =>
    let width := (get_velo_scale wave hp_width).toNat
    List.zipWith (fun a b => a - b) flux (lowpassfilter flux width)) sci_data wavegrid

/-- Auxiliary loop for `np.argmin`: current best value, best index, index
of the next element. -/
def argmin_go : List ℚ → ℚ → Nat → Nat → Nat
  | [], _, best, _ => best
  | x :: xs, bv, best, cur =>
      if x < bv then argmin_go xs x cur (cur + 1)
      else argmin_go xs bv best (cur + 1)

/-- Embedding of `np.argmin`: index of the first minimum of the list. -/
def np_argmin : List ℚ → Nat
  | [] => 0
  | x :: xs => argmin_go xs x 0 1

/-- Embedding of the archive-seeding index of `compute_rv`
(general.py line 588): `closest = np.argmin(mjdate - mjdate_all)` —
note the absence of an absolute value. -/
def closest_index (mjdate : ℚ) (mjdate_all : List ℚ) : Nat :=
  np_argmin (mjdate_all.map (fun m => mjdate - m))

/-- Claimed selection: index minimizing the absolute time difference
`|mjdate - mjdate_all[i]|`. -/
def closest_index_claimed (mjdate : ℚ) (mjdate_all : List ℚ) : Nat :=
  np_argmin (mjdate_all.map (fun m => |mjdate - m|))

/-- Embedding of `sys_rv = systemic_all[closest]` (general.py line 590)
with the source's index. -/
def seed_sys_rv (mjdate : ℚ) (mjdate_all systemic_all : List ℚ) : ℚ :=
  systemic_all.getD (closest_index mjdate mjdate_all) 0

/-- Archive seed the claim describes: the systemic velocity of the entry
nearest in time. -/
def seed_sys_rv_claimed (mjdate : ℚ) (mjdate_all systemic_all : List ℚ) : ℚ :=
  systemic_all.getD (closest_index_claimed mjdate mjdate_all) 0

/-- Sum of squares of a list, `np.nansum(vector ** 2)` on a finite
vector. -/
def sumsq (l : List ℚ) : ℚ := (l.map (fun x => x ^ 2)).sum

/-- Embedding of the value returned by `bouchy_equation_line`
(general.py line 479): `nansum(diff_vector * vector) / nansum(vector ** 2)`. -/
def bouchy_value (vector diff_vector : List ℚ) : ℚ :=
  (List.zipWith (fun a b => a * b) diff_vector vector).sum / sumsq vector

/-- Embedding of the quantity under the square root in
`bouchy_equation_line`'s `rms_value = 1/np.sqrt(np.sum(1/rms_pix**2))`
with `rms_pix = mean_rms / vector` (general.py lines 475-477). -/
def bouchy_rms_sq_inv (vector : List ℚ) (mean_rms : ℚ) : ℚ :=
  (vector.map (fun d => 1 / (mean_rms / d) ^ 2)).sum

/-- Form of the same sum stated by the claim: `Σ (d² / r²)`. -/
def bouchy_rms_sq_inv_claimed (vector : List ℚ) (mean_rms : ℚ) : ℚ :=
  (vector.map (fun d => d ^ 2 / mean_rms ^ 2)).sum

/-- Per-line storage slots of `compute_rv` for the Doppler shift and its
uncertainty at 1st/2nd/3rd derivative order; `none` is the NaN the
arrays are initialised with (general.py lines 613-618). -/
structure LineFitRecord where
  dv : Option ℚ
  dvrms : Option ℚ
  ddv : Option ℚ
  ddvrms : Option ℚ
  dddv : Option ℚ
  dddvrms : Option ℚ
deriving DecidableEq, Repr

/-- Initial per-line record: every slot NaN. -/
def init_line_record : LineFitRecord := ⟨none, none, none, none, none, none⟩

/-- Embedding of the three recording steps of `compute_rv`
(general.py lines 788-801): the 1st-derivative Bouchy output `b1` goes
to `dv/dvrms`, the 2nd-derivative output `b2` to `ddv/ddvrms`, and then
the 3rd-derivative output `b3` is written to `ddv/ddvrms` again —
exactly as the source does. -/
def record_bouchy_fits (r : LineFitRecord) (b1 b2 b3 : ℚ × ℚ) : LineFitRecord :=
  let r1 := { r with dv := some b1.1, dvrms := some b1.2 }
  let r2 := { r1 with ddv := some b2.1, ddvrms := some b2.2 }
  { r2 with ddv := some b3.1, ddvrms := some b3.2 }

/-- Output columns written at the end of `compute_rv`
(general.py lines 855-861): `DVRMS`, `DDV`, `DDVRMS`, `DDDV`,
`DDDVRMS` copy the per-line slots verbatim. -/
def output_deriv_columns (r : LineFitRecord) :
    (Option ℚ × Option ℚ) × (Option ℚ × Option ℚ) :=
  ((r.ddv, r.ddvrms), (r.dddv, r.dddvrms))

/-- Elementwise quotient of two possibly-NaN values as numpy produces a
finite `nsig` entry: both operands finite and the divisor nonzero
(a zero divisor yields an infinity, which `np.isfinite` rejects). -/
def finite_div : Option ℚ → Option ℚ → Option ℚ
  | some a, some b => if b = 0 then none else some (a / b)
  | _, _ => none

/-- Embedding of `nsig = dv / dvrms` followed by `nsig[np.isfinite(nsig)]`
(general.py lines 813-815). -/
def nsig_list (dv dvrms : List (Option ℚ)) : List ℚ :=
  (dv.zip dvrms).filterMap (fun p => finite_div p.1 p.2)

/-- Embedding of the sigma clip `nsig = nsig[np.abs(nsig) < nsig_threshold]`
(general.py line 817). -/
def nsig_passing (dv dvrms : List (Option ℚ)) (thres : ℚ) : List ℚ :=
  (nsig_list dv dvrms).filter (fun x => decide (|x| < thres))

/-- Per-line data `(dv, dvrms)` of exactly the lines that pass the sigma
threshold; this is the set of lines the claim says the velocity update is
computed from. -/
def passing_lines (dv dvrms : List (Option ℚ)) (thres : ℚ) : List (ℚ × ℚ) :=
  (dv.zip dvrms).filterMap (fun p =>
    match p with
    | (some a, some b) => if b ≠ 0 ∧ |a / b| < thres then some (a, b) else none
    | _ => none)

/-- Modelled from the spec: `mp.odd_ratio_mean` lives in `lbl.core.math`,
which is not among the sources; the spec (4.4 step 6) describes it as a
robust, weighted mean over the per-line values and uncertainties that
skips non-finite entries and returns the mean and a bulk uncertainty. It
is modelled as the inverse-variance weighted mean over the lines with a
finite value and a finite nonzero uncertainty, with the inverse total
weight as the (squared) bulk uncertainty. -/
def odd_ratio_mean (value err : List (Option ℚ)) : ℚ × ℚ :=
  let pairs := (value.zip err).filterMap (fun p =>
    match p with
    | (some a, some b) => if b = 0 then none else some (a, b)
    | _ => none)
  let wsum := (pairs.map (fun p => 1 / p.2 ^ 2)).sum
  ((pairs.map (fun p => p.1 / p.2 ^ 2)).sum / wsum, 1 / wsum)

/-- Embedding of the end-of-iteration aggregation of `compute_rv`
(general.py lines 812-830): the sigma-clipped `nsig` feeds the scatter
diagnostic `stddev_nsig = estimate_sigma(nsig)` while
`rv_mean, bulk_error = odd_ratio_mean(dv, dvrms)` is computed from the
full, unclipped per-line arrays.  `estSigma` stands for
`mp.estimate_sigma`, absent from the sources; the results below hold for
every choice of it.  Returns `(stddev_nsig, (rv_mean, bulk))`. -/
def aggregate_velocity (estSigma : List ℚ → ℚ) (dv dvrms : List (Option ℚ))
    (thres : ℚ) : ℚ × (ℚ × ℚ) :=
  (estSigma (nsig_passing dv dvrms thres), odd_ratio_mean dv dvrms)

/-- Embedding of the iteration loop of `compute_rv`
(general.py lines 628-849) with the body of one iteration abstracted as
`step iteration sys_rv = (rv_mean, bulk_error)`: each pass increments
`num_to_converge`, adds `rv_mean` to the trial velocity, and breaks as
soon as `|rv_mean| < converge_thres * bulk_error`.  Arguments after
`thres`: remaining fuel (`compute_rv_n_iters` at the start), the current
iteration index, the trial velocity, the iterations used so far.
Returns the final `(sys_rv, num_to_converge)`. -/
def rv_iterate (step : Nat → ℚ → ℚ × ℚ) (thres : ℚ) :
    Nat → Nat → ℚ → Nat → ℚ × Nat
  | 0, _, sys, num => (sys, num)
  | fuel + 1, iter, sys, num =>
      let r := step iter sys
      let sys2 := sys + r.1
      if |r.1| < thres * r.2 then (sys2, num + 1)
      else rv_iterate step thres fuel (iter + 1) sys2 (num + 1)

/-- The full loop of `compute_rv` from its initial trial velocity. -/
def compute_rv_loop (step : Nat → ℚ → ℚ × ℚ) (thres : ℚ) (nIters : Nat)
    (sys0 : ℚ) : ℚ × Nat :=
  rv_iterate step thres nIters 0 sys0 0

/-- Embedding of the post-loop reset decision of `compute_rv`
(general.py lines 875-886): `reset_rv = (num_to_converge >= max_good_num_iters)`. -/
def reset_rv_out (num maxGood : Nat) : Bool := decide (maxGood ≤ num)

/-- State threaded through the per-line fitting loop of `compute_rv`:
the keep mask over line indices (general.py line 595) and the log of
`(iteration, line)` pairs for which the Bouchy fit was actually
executed. -/
structure FitState where
  mask_keep : Nat → Bool
  fitted : List (Nat × Nat)

/-- Initial fit state: every line kept, nothing fitted yet. -/
def init_fit_state : FitState := ⟨fun _ => true, []⟩

/-- Embedding of the body of the per-line loop of `compute_rv`
(general.py lines 700-739) for one line, with the geometry of the line
at each iteration abstracted as `sched iteration line = (x_start, x_end,
order_length)` (these depend only on the wavelength grids and the trial
velocity).  Control flow follows the source: the line is skipped when
`iteration != 1` and its keep-mask entry is false; the keep-mask entry
is cleared when `x_end - x_start < min_line_width` (without skipping the
fit); the fit is skipped for this iteration when `x_start < 0` or
`x_end > order_length - 2`; otherwise the fit runs and is logged. -/
def process_line (minW : Int) (sched : Nat → Nat → Int × Int × Int)
    (iter line : Nat) (st : FitState) : FitState :=
  if iter ≠ 1 ∧ st.mask_keep line = false then st
  else
    let s := sched iter line
    let xs := s.1
    let xe := s.2.1
    let nord := s.2.2
    let mask2 : Nat → Bool :=
      fun j => if xe - xs < minW ∧ j = line then false else st.mask_keep j
    if xs < 0 then { st with mask_keep := mask2 }
    else if xe > nord - 2 then { st with mask_keep := mask2 }
    else { mask_keep := mask2, fitted := st.fitted ++ [(iter, line)] }

/-- One iteration's pass over all lines `0 .. nLines-1`
(general.py line 700). -/
def run_line_loop (minW : Int) (sched : Nat → Nat → Int × Int × Int)
    (iter nLines : Nat) (st : FitState) : FitState :=
  (List.range nLines).foldl (fun s l => process_line minW sched iter l s) st

/-- The per-line part of `compute_rv`'s iteration loop: `nIters`
iterations over `nLines` lines starting from the all-true keep mask. -/
def run_fit_iterations (minW : Int) (sched : Nat → Nat → Int × Int × Int)
    (nIters nLines : Nat) : FitState :=
  (List.range nIters).foldl
    (fun s it => run_line_loop minW sched it nLines s) init_fit_state

/-- Result of building the edge-weight mask: the order's (possibly
mutated) wavelength grid and the weight mask. -/
structure WeightMaskResult where
  ww2 : List ℚ
  wmask : List ℚ
deriving DecidableEq, Repr

/-- Embedding of the edge-weight mask construction of `compute_rv`
(general.py lines 740-753), faithful to the source including its two
anomalies: in the before-start branch the line
`wavediff = ww_ord[x_start + 1] = ww_ord[x_start]` is a Python chained
assignment, so it stores `ww_ord[x_start]` into `ww_ord[x_start + 1]`
(mutating the order's wavelength grid) and binds `wavediff` to the
wavelength value `ww_ord[x_start]`; and the after-end branch writes its
weight into `weight_mask[0]` rather than the last slot.  The after-end
branch reads the grid after the mutation, as the source does. -/
def build_weight_mask (ww : List ℚ) (x_start x_end : Nat)
    (wave_start wave_end : ℚ) : WeightMaskResult :=
  let wm0 : List ℚ := List.replicate (x_end - x_start + 1) 1
  let step1 : List ℚ × List ℚ :=
    if ww.getD x_start 0 < wave_start then
      let refdiff := ww.getD (x_start + 1) 0 - wave_start
      let ww1 := ww.set (x_start + 1) (ww.getD x_start 0)
      let wavediff := ww.getD x_start 0
      (ww1, wm0.set 0 (refdiff / wavediff))
    else (ww, wm0)
  let ww1 := step1.1
  let wm1 := step1.2
  let wm2 : List ℚ :=
    if ww1.getD (x_end + 1) 0 > wave_end then
      let refdiff := ww1.getD x_end 0 - wave_end
      let wavediff := ww1.getD (x_end + 1) 0 - ww1.getD x_end 0
      wm1.set 0 (1 - refdiff / wavediff)
    else wm1
  ⟨ww1, wm2⟩

/-- Edge-weight mask as the claim describes it: interior pixels weight 1,
first entry the wavelength-overlap fraction of the first pixel with the
line's start boundary, last entry the overlap fraction of the last pixel
with the line's end boundary, and the wavelength grid untouched. -/
def claimed_weight_mask (ww : List ℚ) (x_start x_end : Nat)
    (wave_start wave_end : ℚ) : List ℚ :=
  let wm0 : List ℚ := List.replicate (x_end - x_start + 1) 1
  let wm1 :=
    if ww.getD x_start 0 < wave_start then
      wm0.set 0 ((ww.getD (x_start + 1) 0 - wave_start) /
        (ww.getD (x_start + 1) 0 - ww.getD x_start 0))
    else wm0
  if ww.getD (x_end + 1) 0 > wave_end then
    wm1.set (x_end - x_start)
      (1 - (ww.getD x_end 0 - wave_end) /
        (ww.getD (x_end + 1) 0 - ww.getD x_end 0))
  else wm1

/-- Minimum of a list of rationals (`np.min`; junk `0` on `[]`, where
numpy would raise). -/
def pyListMin : List ℚ → ℚ
  | [] => 0
  | x :: xs => xs.foldl min x

/-- Maximum of a list of rationals (`np.max`; junk `0` on `[]`). -/
def pyListMax : List ℚ → ℚ
  | [] => 0
  | x :: xs => xs.foldl max x

/-- One reference line of the build path of `make_ref_dict`: order index,
wavelength bounds and coarse weight. -/
structure RefLine where
  order : Nat
  wave_start : ℚ
  wave_end : ℚ
  weight_line : ℚ
deriving DecidableEq, Repr

/-- Embedding of the per-order mask selection of `make_ref_dict`
(general.py lines 113-117): mask entries `(center, weight)` whose center
lies strictly between the order's minimum and maximum wavelength. -/
def surviving_mask_lines (waveOrd : List ℚ) (mask : List (ℚ × ℚ)) : List (ℚ × ℚ) :=
  mask.filter (fun p =>
    decide (pyListMin waveOrd < p.1) && decide (p.1 < pyListMax waveOrd))

/-- Embedding of the per-order line construction of `make_ref_dict`
(general.py lines 119-133): when any mask centers survive, consecutive
pairs of surviving centers become the lines, the order index is repeated
`n - 1` times, `wave_start`/`weight_line` take the first `n - 1`
survivors' values and `wave_end` the last `n - 1` centers. -/
def make_ref_lines_order (orderNum : Nat) (waveOrd : List ℚ)
    (mask : List (ℚ × ℚ)) : List RefLine :=
  let good := surviving_mask_lines waveOrd mask
  if 0 < good.length then
    (good.zip good.tail).map (fun pq =>
      ⟨orderNum, pq.1.1, pq.2.1, pq.1.2⟩)
  else []

/-- Residuals `spectrum[order] - model[order]` of `estimate_noise_model`
(general.py line 424). -/
def py_residuals (s m : List ℚ) : List ℚ := List.zipWith (fun a b => a - b) s m

/-- Embedding of `indices = np.arange(0, model.shape[1], npoints)`
(general.py line 426). -/
def slide_indices (modelLen npoints : Nat) : List Nat :=
  (List.range ((modelLen + npoints - 1) / npoints)).map (fun i => i * npoints)

/-- Embedding of the per-window sigma computation of
`estimate_noise_model` (general.py lines 430-442): each window is
`residuals[max(idx - npoints, 0) : min(idx + npoints, modelLen)]`, its
sigma comes from `estimate_sigma` (a `lbl.core.math` function taken as
the parameter `estSigma`; `none` is a NaN result), and zero sigmas are
replaced by NaN. -/
def window_sigmas (estSigma : List ℚ → Option ℚ) (residuals : List ℚ)
    (modelLen npoints : Nat) : List (Option ℚ) :=
  (slide_indices modelLen npoints).map (fun idx =>
    let istart := idx - npoints
    let iend := min (idx + npoints) modelLen
    let s := estSigma ((residuals.drop istart).take (iend - istart))
    if s = some 0 then none else s)

/-- Number of finite window sigmas, `np.sum(np.isfinite(sigma))`
(general.py lines 445-447). -/
def valid_window_count (estSigma : List ℚ → Option ℚ) (residuals : List ℚ)
    (modelLen npoints : Nat) : Nat :=
  ((window_sigmas estSigma residuals modelLen npoints).filterMap id).length

/-- Embedding of the per-order branch of `estimate_noise_model`
(general.py lines 447-455): with at least 3 finite window sigmas a
degree-1 interpolant (`splineFit`, abstract, fed the valid
(index, sigma) pairs) is evaluated at every pixel; otherwise the order's
RMS row is filled with NaN. -/
def order_rms (estSigma : List ℚ → Option ℚ)
    (splineFit : List (Nat × ℚ) → Nat → ℚ) (residuals : List ℚ)
    (modelLen npoints : Nat) : List (Option ℚ) :=
  if 2 < valid_window_count estSigma residuals modelLen npoints then
    (List.range modelLen).map (fun x =>
      some (splineFit
        (((slide_indices modelLen npoints).zip
          (window_sigmas estSigma residuals modelLen npoints)).filterMap
            (fun p => p.2.map (fun v => (p.1, v)))) x))
  else List.replicate modelLen none

/-- Embedding of `estimate_noise_model` (general.py lines 408-457):
per-order RMS rows over the science-minus-model residuals. -/
def estimate_noise_model (estSigma : List ℚ → Option ℚ)
    (splineFit : List (Nat × ℚ) → Nat → ℚ) :
    List (List ℚ) → List (List ℚ) → Nat → List (List (Option ℚ))
  | s :: ss, m :: ms, npoints =>
      order_rms estSigma splineFit (py_residuals s m) m.length npoints ::
        estimate_noise_model estSigma splineFit ss ms npoints
  | _, _, _ => []

/-- Concrete per-line inputs for the aggregation counterexample: two line
sets that agree on the lines passing a 5-sigma threshold but differ on a
discarded line. -/
def dv_a : List (Option ℚ) := [some 0, some 100]

/-- Uncertainties paired with `dv_a`. -/
def dvrms_a : List (Option ℚ) := [some 1, some 1]

/-- Second line set: same passing line, the discarded line replaced by a
NaN. -/
def dv_b : List (Option ℚ) := [some 0, none]

/-- Uncertainties paired with `dv_b`. -/
def dvrms_b : List (Option ℚ) := [some 1, some 1]

/-- A concrete stand-in for `estimate_sigma` (its value is irrelevant to
the aggregation counterexample). -/
def sigma_zero : List ℚ → ℚ := fun _ => 0

/-- An iteration body whose velocity update is `0` with bulk error `1`:
the loop converges on the very first iteration. -/
def step_zero : Nat → ℚ → ℚ × ℚ := fun _ _ => (0, 1)

/-- A line-geometry schedule that resolves every line to the pixel span
`[0, 3]` (width 3) inside an order of 100 pixels, at every iteration. -/
def sched_narrow : Nat → Nat → Int × Int × Int := fun _ _ => (0, 3, 100)

/-- Concrete order wavelength grid for the weight-mask evaluation. -/
def ww_c6 : List ℚ := [10, 12, 14, 16, 18, 20]

/-- A concrete `estimate_sigma` stand-in returning sigma `0` on every
window, so every window is invalid after the zero-to-NaN masking. -/
def sigma_const_zero : List ℚ → Option ℚ := fun _ => some 0

/-- A concrete degree-1 interpolant stand-in (never reached in the
noise-model witness). -/
def spline_fit_zero : List (Nat × ℚ) → Nat → ℚ := fun _ _ => 0

attribute [local semireducible] Rat.add Rat.sub Rat.mul Rat.inv Rat.ofScientific

/-- C1: the claim says the science high-pass step subtracts
`lowpassfilter(flux, width)` from each order's flux; the source
(general.py line 558) subtracts `lowpassfilter(wavegrid[order], width)`
instead.  On the one-order input `wavegrid = [1, 2, 3]`,
`flux = [10, 10, 10]`, `hp_width = c` (so the derived width is 3), the
code leaves `[17/2, 8, 15/2]` while the claimed step leaves `[0, 0, 0]`. -/
theorem c1_highpass_bug :
    highpass_science [[10, 10, 10]] [[1, 2, 3]] c_light = [[17/2, 8, 15/2]] ∧
    highpass_claimed [[10, 10, 10]] [[1, 2, 3]] c_light = [[0, 0, 0]] ∧
    highpass_science [[10, 10, 10]] [[1, 2, 3]] c_light ≠
      highpass_claimed [[10, 10, 10]] [[1, 2, 3]] c_light := by
  decide

/-- C4: the claim says the archive seed uses the entry minimizing
`|mjdate - mjdate_all[i]|`; the source (general.py line 588) computes
`np.argmin(mjdate - mjdate_all)` without the absolute value, so it picks
the entry with the largest timestamp.  With `mjdate = 10`,
`mjdate_all = [9, 20]`, `systemic_all = [100, 200]` the nearest entry is
index 0 (distance 1 versus 10), but the code selects index 1 and seeds
the velocity 200 instead of 100. -/
theorem c4_closest_bug :
    |10 - (9 : ℚ)| < |10 - (20 : ℚ)| ∧
    closest_index 10 [9, 20] = 1 ∧
    closest_index_claimed 10 [9, 20] = 0 ∧
    seed_sys_rv 10 [9, 20] [100, 200] = 200 ∧
    seed_sys_rv_claimed 10 [9, 20] [100, 200] = 100 := by
  decide

/-- C6: the claim says the edge-weight mask carries the start-boundary
overlap fraction in its first entry, the end-boundary overlap fraction in
its last entry, and leaves the wavelength grid unchanged.  On the grid
`[10, 12, 14, 16, 18, 20]` with pixel window `[1, 4]` and line bounds
`13` and `35/2`, the source's chained assignment
`wavediff = ww_ord[x_start+1] = ww_ord[x_start]` mutates the grid to
`[10, 12, 12, 16, 18, 20]`, and the after-end branch overwrites slot 0,
so the code produces the mask `[3/4, 1, 1, 1]` (last entry 1) where the
claim requires `[1/2, 1, 1, 3/4]`. -/
theorem c6_weight_mask_bug :
    build_weight_mask ww_c6 1 4 13 (35/2) =
      ⟨[10, 12, 12, 16, 18, 20], [3/4, 1, 1, 1]⟩ ∧
    claimed_weight_mask ww_c6 1 4 13 (35/2) = [1/2, 1, 1, 3/4] ∧
    (build_weight_mask ww_c6 1 4 13 (35/2)).ww2 ≠ ww_c6 ∧
    (build_weight_mask ww_c6 1 4 13 (35/2)).wmask.getLast? ≠ some (3/4) := by
  decide

/-- C8: the claim says the 2nd-order Bouchy result lands in `ddv/ddvrms`
and the 3rd-order result in `dddv/dddvrms`.  In the source
(general.py lines 794-801) the third `bouchy_equation_line` call writes
into `ddv/ddvrms` again, so with per-line results `(1,10)`, `(2,20)`,
`(3,30)` for the 1st/2nd/3rd derivative the recorded slots are
`dv = 1`, `ddv = 3` (not 2), and `dddv` stays NaN; the `DDV`/`DDDV`
output columns copy exactly these slots. -/
theorem c8_deriv_slots_bug :
    record_bouchy_fits init_line_record (1, 10) (2, 20) (3, 30) =
      ⟨some 1, some 10, some 3, some 30, none, none⟩ ∧
    output_deriv_columns
      (record_bouchy_fits init_line_record (1, 10) (2, 20) (3, 30)) =
      ((some 3, some 30), (none, none)) ∧
    (record_bouchy_fits init_line_record (1, 10) (2, 20) (3, 30)).ddv ≠
      some 2 := by
  decide

/-- C2 counterexample: the line sets `dv_a`/`dvrms_a` and `dv_b`/`dvrms_b`
have identical sets of lines passing the 5-sigma threshold, yet the
velocity update `rv_mean` computed by the source's aggregation differs
(50 versus 0), because `odd_ratio_mean` receives the full unclipped
arrays (general.py line 826); so `rv_mean` is not a function of the
passing lines only. -/
theorem c2_claim_false :
    passing_lines dv_a dvrms_a 5 = passing_lines dv_b dvrms_b 5 ∧
    (aggregate_velocity sigma_zero dv_a dvrms_a 5).2.1 = 50 ∧
    (aggregate_velocity sigma_zero dv_b dvrms_b 5).2.1 = 0 ∧
    (aggregate_velocity sigma_zero dv_a dvrms_a 5).2.1 ≠
      (aggregate_velocity sigma_zero dv_b dvrms_b 5).2.1 := by
  decide

/-- C3 counterexample: with an iteration body that converges on the very
first pass (`step_zero`), a 10-iteration budget and `max_good = 1`, the
loop stops after 1 iteration; the claim would make the exposure
CONVERGED (`reset = false`) because `1 ≤ 1`, but the source's test
`num_to_converge >= max_good_num_iters` (general.py line 875) sets
`reset_rv = true`. -/
theorem c3_claim_false :
    ¬ (reset_rv_out (compute_rv_loop step_zero 1 10 0).2 1 = false ↔
        (compute_rv_loop step_zero 1 10 0).2 ≤ 1) := by
  decide

/-- C5 counterexample: with `min_line_width = 5` and a schedule giving
every line the span 3, line 0 is flagged (keep-mask false) already in
iteration 0, yet the run still fits it in iteration 1 — the source's
skip guard `if (iteration != 1) and not mask_keep[line]`
(general.py line 706) does not skip flagged lines when the iteration
index is 1 — so the line is not excluded from every subsequent
iteration. -/
theorem c5_claim_false :
    (run_fit_iterations 5 sched_narrow 1 1).mask_keep 0 = false ∧
    (1, 0) ∈ (run_fit_iterations 5 sched_narrow 3 1).fitted := by
  decide

/-- C2 amended: in `compute_rv` the sigma-threshold clip applies only to
the diagnostic scatter statistic `stddev_nsig` (which is indeed a
function of the clipped `nsig` values only), while the velocity update
`rv_mean` is the robust mean of the full per-line `dv`/`dvrms` arrays —
in particular it does not depend on the threshold at all. -/
theorem c2_amended (estSigma : List ℚ → ℚ) (dv1 rms1 dv2 rms2 : List (Option ℚ))
    (thres thres2 : ℚ) :
    (nsig_passing dv1 rms1 thres = nsig_passing dv2 rms2 thres →
      (aggregate_velocity estSigma dv1 rms1 thres).1 =
        (aggregate_velocity estSigma dv2 rms2 thres).1) ∧
    (aggregate_velocity estSigma dv1 rms1 thres).2 = odd_ratio_mean dv1 rms1 ∧
    (aggregate_velocity estSigma dv1 rms1 thres).2.1 =
      (aggregate_velocity estSigma dv1 rms1 thres2).2.1 := by
  refine ⟨fun h => ?_, rfl, rfl⟩
  simp only [aggregate_velocity, h]

/-- C2 amended, witness at the counterexample's concrete line sets with a
threshold of 5. -/
theorem c2_amended_witness :
    nsig_passing dv_a dvrms_a 5 = nsig_passing dv_b dvrms_b 5 ∧
    (aggregate_velocity sigma_zero dv_a dvrms_a 5).1 =
      (aggregate_velocity sigma_zero dv_b dvrms_b 5).1 :=
  ⟨by decide,
    (c2_amended sigma_zero dv_a dvrms_a dv_b dvrms_b 5 7).1 (by decide)⟩

/-- C3 amended: the loop of `compute_rv` does stop as soon as the
velocity update satisfies `|rv_mean| < converge_thres * bulk_error`
(returning after exactly that iteration), but the exposure counts as
converged (`reset_rv = false`) if and only if the number of iterations
used is *strictly less* than `max_good_num_iters` — at exactly the
max-good count the source already sets `reset_rv = true`. -/
theorem c3_amended (step : Nat → ℚ → ℚ × ℚ) (thres : ℚ)
    (fuel iter num n maxGood : Nat) (sys : ℚ) :
    (|(step iter sys).1| < thres * (step iter sys).2 →
      rv_iterate step thres (fuel + 1) iter sys num =
        (sys + (step iter sys).1, num + 1)) ∧
    (reset_rv_out n maxGood = false ↔ n < maxGood) := by
  constructor
  · intro h
    simp only [rv_iterate]
    rw [if_pos h]
  · simp only [reset_rv_out, decide_eq_false_iff_not]
    exact Nat.not_le

/-- C3 amended, witness: at `step_zero` the first update `0` satisfies
the stopping test against bulk error `1`, so the loop returns after one
iteration, and one used iteration is converged against `maxGood = 2`. -/
theorem c3_amended_witness :
    |(step_zero 0 0).1| < 1 * (step_zero 0 0).2 ∧
    rv_iterate step_zero 1 10 0 0 0 = (0 + (step_zero 0 0).1, 0 + 1) ∧
    (reset_rv_out 1 2 = false ↔ 1 < 2) :=
  ⟨by decide, (c3_amended step_zero 1 9 0 0 1 2 0).1 (by decide),
    (c3_amended step_zero 1 9 0 0 1 2 0).2⟩

/-- Sum of the products of `l.map (k * ·)` with `l` itself is `k` times
the sum of squares of `l`. -/
theorem zip_mul_map_self (k : ℚ) (l : List ℚ) :
    (List.zipWith (fun a b => a * b) (l.map (fun x => k * x)) l).sum =
      k * sumsq l := by
  induction l with
  | nil => simp [sumsq]
  | cons x xs ih =>
      simp only [sumsq] at ih ⊢
      simp only [List.map_cons, List.zipWith_cons_cons, List.sum_cons]
      rw [ih]
      ring

/-- C7: `bouchy_equation_line` returns
`value = Σ(diff·d)/Σ(d²)` (that is `bouchy_value` by construction) with
the uncertainty `1/sqrt(Σ 1/(r/d)²)`, whose inner sum equals the claimed
`Σ(d²/r²)` identically; and for `diff = k · d` with `Σ(d²) ≠ 0` the
value is exactly `k`. -/
theorem c7_bouchy (d diff : List ℚ) (r k : ℚ) :
    bouchy_rms_sq_inv d r = bouchy_rms_sq_inv_claimed d r ∧
    (diff = d.map (fun x => k * x) → sumsq d ≠ 0 →
      bouchy_value d diff = k) := by
  constructor
  · unfold bouchy_rms_sq_inv bouchy_rms_sq_inv_claimed
    have h : (fun x : ℚ => 1 / (r / x) ^ 2) = fun x : ℚ => x ^ 2 / r ^ 2 := by
      funext x
      rw [div_pow, one_div_div]
    rw [h]
  · intro hdiff hs
    subst hdiff
    unfold bouchy_value
    rw [zip_mul_map_self, mul_div_assoc, div_self hs, mul_one]

/-- C7 witness at `d = [1, 2]`, `r = 7`, `k = 3`, `diff = [3, 6]`. -/
theorem c7_bouchy_witness :
    ([3, 6] : List ℚ) = [1, 2].map (fun x => (3 : ℚ) * x) ∧
    sumsq [1, 2] ≠ 0 ∧
    bouchy_value [1, 2] [3, 6] = 3 :=
  ⟨by decide, by decide,
    (c7_bouchy [1, 2] [3, 6] 7 3).2 (by decide) (by decide)⟩

/-- Keep mask after `process_line`: either unchanged, or with the
processed line's entry cleared because its span was too narrow. -/
theorem process_line_mask_eq (minW : Int) (sched : Nat → Nat → Int × Int × Int)
    (iter l : Nat) (st : FitState) :
    (process_line minW sched iter l st).mask_keep = st.mask_keep ∨
    (process_line minW sched iter l st).mask_keep = fun j =>
      if (sched iter l).2.1 - (sched iter l).1 < minW ∧ j = l then false
      else st.mask_keep j := by
  unfold process_line
  dsimp only
  split_ifs <;> first | exact Or.inl rfl | exact Or.inr rfl

/-- A cleared keep-mask entry stays cleared across `process_line`. -/
theorem process_line_mask_false (minW : Int) (sched : Nat → Nat → Int × Int × Int)
    (iter l line : Nat) (st : FitState) (h : st.mask_keep line = false) :
    (process_line minW sched iter l st).mask_keep line = false := by
  rcases process_line_mask_eq minW sched iter l st with he | he <;> rw [he]
  · exact h
  · dsimp only
    split_ifs
    · rfl
    · exact h

/-- `process_line` either leaves the fit log unchanged or appends the pair
for the processed line at the current iteration. -/
theorem process_line_fitted_eq (minW : Int) (sched : Nat → Nat → Int × Int × Int)
    (iter l : Nat) (st : FitState) :
    (process_line minW sched iter l st).fitted = st.fitted ∨
    (process_line minW sched iter l st).fitted = st.fitted ++ [(iter, l)] := by
  unfold process_line
  dsimp only
  split_ifs <;> first | exact Or.inl rfl | exact Or.inr rfl

/-- A line whose keep-mask entry is cleared is skipped whole by
`process_line` when the iteration index is not 1. -/
theorem process_line_skip (minW : Int) (sched : Nat → Nat → Int × Int × Int)
    (iter l : Nat) (st : FitState) (h1 : iter ≠ 1)
    (h2 : st.mask_keep l = false) :
    process_line minW sched iter l st = st := by
  unfold process_line
  rw [if_pos ⟨h1, h2⟩]

/-- A cleared keep-mask entry stays cleared across a whole pass over any
list of lines. -/
theorem foldl_line_mask_preserve (minW : Int)
    (sched : Nat → Nat → Int × Int × Int) (iter line : Nat) :
    ∀ (ls : List Nat) (st : FitState), st.mask_keep line = false →
      ((ls.foldl (fun s l => process_line minW sched iter l s) st).mask_keep
        line = false) := by
  intro ls
  induction ls with
  | nil => intro st h; exact h
  | cons l ls ih =>
      intro st h
      rw [List.foldl_cons]
      exact ih _ (process_line_mask_false minW sched iter l line st h)

/-- Every pair a pass over a list of lines adds to the fit log carries the
current iteration index. -/
theorem foldl_line_fitted_sub (minW : Int)
    (sched : Nat → Nat → Int × Int × Int) (iter : Nat) :
    ∀ (ls : List Nat) (st : FitState) (p : Nat × Nat),
      p ∈ (ls.foldl (fun s l => process_line minW sched iter l s) st).fitted →
      p ∈ st.fitted ∨ p.1 = iter := by
  intro ls
  induction ls with
  | nil => intro st p h; exact Or.inl h
  | cons l ls ih =>
      intro st p h
      rw [List.foldl_cons] at h
      rcases ih _ p h with h2 | h2
      · rcases process_line_fitted_eq minW sched iter l st with he | he
        · rw [he] at h2
          exact Or.inl h2
        · rw [he] at h2
          rcases List.mem_append.1 h2 with h3 | h3
          · exact Or.inl h3
          · right
            rw [List.mem_singleton.1 h3]
      · exact Or.inr h2

/-- In an iteration of index other than 1, a line whose keep-mask entry is
cleared is never added to the fit log by a pass over any list of lines. -/
theorem foldl_line_no_fit (minW : Int) (sched : Nat → Nat → Int × Int × Int)
    (iter line : Nat) (hiter : iter ≠ 1) :
    ∀ (ls : List Nat) (st : FitState), st.mask_keep line = false →
      (iter, line) ∉ st.fitted →
      (iter, line) ∉
        (ls.foldl (fun s l => process_line minW sched iter l s) st).fitted := by
  intro ls
  induction ls with
  | nil => intro st _ h2; exact h2
  | cons l ls ih =>
      intro st h1 h2
      rw [List.foldl_cons]
      apply ih
      · exact process_line_mask_false minW sched iter l line st h1
      · by_cases hl : l = line
        · subst hl
          rw [process_line_skip minW sched iter l st hiter h1]
          exact h2
        · rcases process_line_fitted_eq minW sched iter l st with he | he <;> rw [he]
          · exact h2
          · intro hmem
            rcases List.mem_append.1 hmem with h3 | h3
            · exact h2 h3
            · exact hl (congrArg Prod.snd (List.mem_singleton.1 h3)).symm

/-- A cleared keep-mask entry stays cleared across any sequence of whole
iterations. -/
theorem foldl_iter_mask_preserve (minW : Int)
    (sched : Nat → Nat → Int × Int × Int) (nLines line : Nat) :
    ∀ (its : List Nat) (st : FitState), st.mask_keep line = false →
      ((its.foldl (fun s it => run_line_loop minW sched it nLines s)
        st).mask_keep line = false) := by
  intro its
  induction its with
  | nil => intro st h; exact h
  | cons it its ih =>
      intro st h
      rw [List.foldl_cons]
      exact ih _ (foldl_line_mask_preserve minW sched it line _ st h)

/-- Every pair a sequence of iterations adds to the fit log carries one of
those iteration indices. -/
theorem foldl_iter_fitted_sub (minW : Int)
    (sched : Nat → Nat → Int × Int × Int) (nLines : Nat) :
    ∀ (its : List Nat) (st : FitState) (p : Nat × Nat),
      p ∈ (its.foldl (fun s it => run_line_loop minW sched it nLines s)
        st).fitted →
      p ∈ st.fitted ∨ p.1 ∈ its := by
  intro its
  induction its with
  | nil => intro st p h; exact Or.inl h
  | cons it its ih =>
      intro st p h
      rw [List.foldl_cons] at h
      rcases ih _ p h with h2 | h2
      · unfold run_line_loop at h2
        rcases foldl_line_fitted_sub minW sched it _ st p h2 with h3 | h3
        · exact Or.inl h3
        · right
          rw [h3]
          exact List.mem_cons_self it its
      · exact Or.inr (List.mem_cons_of_mem _ h2)

/-- Every pair in the fit log of a full run has iteration index below the
iteration budget. -/
theorem run_fit_fst_lt (minW : Int) (sched : Nat → Nat → Int × Int × Int)
    (nIters nLines : Nat) (p : Nat × Nat)
    (h : p ∈ (run_fit_iterations minW sched nIters nLines).fitted) :
    p.1 < nIters := by
  unfold run_fit_iterations at h
  rcases foldl_iter_fitted_sub minW sched nLines (List.range nIters)
      init_fit_state p h with h2 | h2
  · simp [init_fit_state] at h2
  · exact List.mem_range.1 h2

/-- Across any sequence of iterations, a line with a cleared keep-mask
entry is never fitted at a target iteration index other than 1. -/
theorem foldl_iter_no_fit (minW : Int) (sched : Nat → Nat → Int × Int × Int)
    (nLines line j0 : Nat) (hj0 : j0 ≠ 1) :
    ∀ (its : List Nat) (st : FitState), st.mask_keep line = false →
      (j0, line) ∉ st.fitted →
      (j0, line) ∉
        (its.foldl (fun s it => run_line_loop minW sched it nLines s)
          st).fitted := by
  intro its
  induction its with
  | nil => intro st _ h2; exact h2
  | cons it its ih =>
      intro st h1 h2
      rw [List.foldl_cons]
      apply ih
      · exact foldl_line_mask_preserve minW sched it line _ st h1
      · by_cases hit : it = j0
        · subst hit
          unfold run_line_loop
          exact foldl_line_no_fit minW sched it line hj0 _ st h1 h2
        · intro hmem
          unfold run_line_loop at hmem
          rcases foldl_line_fitted_sub minW sched it _ st _ hmem with h3 | h3
          · exact h2 h3
          · exact hit h3.symm

/-- C5 amended: once a line's keep-mask entry is cleared (span below the
minimum width) by the end of iteration `k`, it stays cleared for the rest
of the exposure, and the line is never fitted again at any later
iteration *except* an iteration of index 1 — the source's skip guard
`if (iteration != 1) and not mask_keep[line]` still processes flagged
lines in the iteration of index 1, and its diagnostics are those of the
last iteration that fitted it rather than necessarily NaN. -/
theorem c5_amended (minW : Int) (sched : Nat → Nat → Int × Int × Int)
    (nIters nLines line k : Nat)
    (hmask : (run_fit_iterations minW sched (k + 1) nLines).mask_keep line =
      false)
    (hle : k + 1 ≤ nIters) :
    (run_fit_iterations minW sched nIters nLines).mask_keep line = false ∧
    ∀ j, k < j → j ≠ 1 →
      (j, line) ∉ (run_fit_iterations minW sched nIters nLines).fitted := by
  have hr : List.range nIters =
      List.range (k + 1) ++
        (List.range (nIters - (k + 1))).map (fun x => (k + 1) + x) := by
    rw [← List.range_add]
    congr 1
    omega
  have hsplit : run_fit_iterations minW sched nIters nLines =
      ((List.range (nIters - (k + 1))).map (fun x => (k + 1) + x)).foldl
        (fun s it => run_line_loop minW sched it nLines s)
        (run_fit_iterations minW sched (k + 1) nLines) := by
    unfold run_fit_iterations
    rw [hr, List.foldl_append]
  constructor
  · rw [hsplit]
    exact foldl_iter_mask_preserve minW sched nLines line _ _ hmask
  · intro j hj hj1
    rw [hsplit]
    apply foldl_iter_no_fit minW sched nLines line j hj1 _ _ hmask
    intro hmem
    have hlt := run_fit_fst_lt minW sched (k + 1) nLines (j, line) hmem
    simp only at hlt
    omega

/-- C9: on the build path of `make_ref_dict`, an order with `n` surviving
mask centers (strictly inside the order's wavelength range) contributes
exactly `n - 1` reference lines (`Nat` subtraction, so `max (n-1) 0`),
the `i`-th line pairing consecutive surviving centers as
`wave_start`/`wave_end` with the first center's weight and the current
order index; an order with no surviving centers contributes no lines and
no error arises. -/
theorem c9_ref_lines (orderNum : Nat) (waveOrd : List ℚ)
    (mask : List (ℚ × ℚ)) :
    (make_ref_lines_order orderNum waveOrd mask).length =
      (surviving_mask_lines waveOrd mask).length - 1 ∧
    (∀ i (h1 : i < (make_ref_lines_order orderNum waveOrd mask).length)
        (h2 : i < (surviving_mask_lines waveOrd mask).length)
        (h3 : i + 1 < (surviving_mask_lines waveOrd mask).length),
      (make_ref_lines_order orderNum waveOrd mask).get ⟨i, h1⟩ =
        ⟨orderNum, ((surviving_mask_lines waveOrd mask).get ⟨i, h2⟩).1,
          ((surviving_mask_lines waveOrd mask).get ⟨i + 1, h3⟩).1,
          ((surviving_mask_lines waveOrd mask).get ⟨i, h2⟩).2⟩) ∧
    (surviving_mask_lines waveOrd mask = [] →
      make_ref_lines_order orderNum waveOrd mask = []) := by
  by_cases hgood : 0 < (surviving_mask_lines waveOrd mask).length
  · have hdef : make_ref_lines_order orderNum waveOrd mask =
        ((surviving_mask_lines waveOrd mask).zip
          (surviving_mask_lines waveOrd mask).tail).map (fun pq =>
            ⟨orderNum, pq.1.1, pq.2.1, pq.1.2⟩) := by
      unfold make_ref_lines_order
      rw [if_pos hgood]
    refine ⟨?_, ?_, ?_⟩
    · rw [hdef]
      simp only [List.length_map, List.length_zip, List.length_tail]
      omega
    · intro i h1 h2 h3
      rw [List.get_of_eq hdef]
      simp only [List.get_eq_getElem, List.getElem_map, List.getElem_zip,
        List.getElem_tail]
    · intro hnil
      rw [hnil] at hgood
      simp at hgood
  · have hnil : surviving_mask_lines waveOrd mask = [] :=
      List.length_eq_zero.1 (by omega)
    have hdef : make_ref_lines_order orderNum waveOrd mask = [] := by
      unfold make_ref_lines_order
      rw [if_neg hgood]
    refine ⟨?_, ?_, fun _ => hdef⟩
    · rw [hdef, hnil]
      rfl
    · intro i h1
      rw [hdef] at h1
      exact absurd h1 (by simp)

/-- C9 witness: a two-sample order grid `[1, 4]` with two surviving mask
centers produces the single line pairing them. -/
theorem c9_ref_lines_witness :
    (make_ref_lines_order 0 [1, 4] [(2, 5), (3, 6)]).length =
      (surviving_mask_lines [1, 4] [(2, 5), (3, 6)]).length - 1 ∧
    (make_ref_lines_order 0 [1, 4] [(2, 5), (3, 6)]).get
        ⟨0, by decide⟩ =
      ⟨0, ((surviving_mask_lines [1, 4] [(2, 5), (3, 6)]).get
          ⟨0, by decide⟩).1,
        ((surviving_mask_lines [1, 4] [(2, 5), (3, 6)]).get
          ⟨1, by decide⟩).1,
        ((surviving_mask_lines [1, 4] [(2, 5), (3, 6)]).get
          ⟨0, by decide⟩).2⟩ :=
  ⟨(c9_ref_lines 0 [1, 4] [(2, 5), (3, 6)]).1,
    (c9_ref_lines 0 [1, 4] [(2, 5), (3, 6)]).2.1 0 (by decide) (by decide)
      (by decide)⟩

/-- Row extraction for `estimate_noise_model`: any order whose residuals
admit fewer than 3 valid window sigmas gets the all-NaN row. -/
theorem noise_row_nan (estSigma : List ℚ → Option ℚ)
    (splineFit : List (Nat × ℚ) → Nat → ℚ) :
    ∀ (spectrum model : List (List ℚ)) (npoints i : Nat) (s m : List ℚ),
      spectrum[i]? = some s → model[i]? = some m →
      valid_window_count estSigma (py_residuals s m) m.length npoints < 3 →
      (estimate_noise_model estSigma splineFit spectrum model npoints)[i]? =
        some (List.replicate m.length none) := by
  intro spectrum
  induction spectrum with
  | nil =>
      intro model npoints i s m hs
      simp at hs
  | cons s0 ss ih =>
      intro model npoints i s m hs hm hcount
      cases model with
      | nil => simp at hm
      | cons m0 ms =>
          cases i with
          | zero =>
              simp only [List.getElem?_cons_zero, Option.some.injEq] at hs hm
              subst hs
              subst hm
              simp only [estimate_noise_model, List.getElem?_cons_zero,
                Option.some.injEq]
              unfold order_rms
              rw [if_neg (by omega)]
          | succ n =>
              simp only [List.getElem?_cons_succ] at hs hm
              simp only [estimate_noise_model, List.getElem?_cons_succ]
              exact ih ms npoints n s m hs hm hcount

/-- C10: whenever the order at index `i` of the input to
`estimate_noise_model` has fewer than 3 finite sliding-window sigmas
(zero sigmas already replaced by NaN), the returned RMS row for that
order is entirely NaN — it contains no zeros — and the function is total,
so nothing is raised. -/
theorem c10_noise (estSigma : List ℚ → Option ℚ)
    (splineFit : List (Nat × ℚ) → Nat → ℚ)
    (spectrum model : List (List ℚ)) (npoints i : Nat) (s m : List ℚ)
    (hs : spectrum[i]? = some s) (hm : model[i]? = some m)
    (hcount : valid_window_count estSigma (py_residuals s m) m.length
      npoints < 3) :
    (estimate_noise_model estSigma splineFit spectrum model npoints)[i]? =
      some (List.replicate m.length none) ∧
    ∀ q ∈ List.replicate m.length (none : Option ℚ), q ≠ some 0 := by
  constructor
  · exact noise_row_nan estSigma splineFit spectrum model npoints i s m hs hm
      hcount
  · intro q hq
    rw [List.eq_of_mem_replicate hq]
    exact fun h => Option.noConfusion h

/-- C10 witness: a one-order pair with two pixels and a window sigma of
zero everywhere — zero windows are invalid, so the RMS row is all NaN. -/
theorem c10_noise_witness :
    ([[1, 2]] : List (List ℚ))[0]? = some [1, 2] ∧
    ([[3, 4]] : List (List ℚ))[0]? = some [3, 4] ∧
    valid_window_count sigma_const_zero (py_residuals [1, 2] [3, 4])
      (List.length [(3 : ℚ), 4]) 1 < 3 ∧
    (estimate_noise_model sigma_const_zero spline_fit_zero [[1, 2]] [[3, 4]]
      1)[0]? = some (List.replicate (List.length [(3 : ℚ), 4]) none) :=
  ⟨rfl, rfl, by decide,
    (c10_noise sigma_const_zero spline_fit_zero [[1, 2]] [[3, 4]] 1 0 [1, 2]
      [3, 4] rfl rfl (by decide)).1⟩

/-- C5 amended, witness: with minimum width 5 and the all-narrow schedule,
line 0 is flagged by the end of iteration 0, the keep-mask entry is still
false after all 3 iterations, and the line is not fitted at iteration 2. -/
theorem c5_amended_witness :
    (run_fit_iterations 5 sched_narrow 1 1).mask_keep 0 = false ∧
    0 + 1 ≤ 3 ∧
    (run_fit_iterations 5 sched_narrow 3 1).mask_keep 0 = false ∧
    (2, 0) ∉ (run_fit_iterations 5 sched_narrow 3 1).fitted :=
  ⟨by decide, by decide,
    (c5_amended 5 sched_narrow 3 1 0 0 (by decide) (by decide)).1,
    (c5_amended 5 sched_narrow 3 1 0 0 (by decide) (by decide)).2 2
      (by decide) (by decide)⟩

end Lbl
